import Mathlib

/-!
Verification of the hitcastor-api market-resolution engine.

The TypeScript sources are shallowly embedded: JavaScript strings are
`List Char` (byte buffers are `List Nat` with entries below 256), JavaScript
numbers holding ranks are `Int`, chain quantities are `Nat`, fallible code
returns `Except`, and the persisted `resolutions` row is an explicit record
threaded through the job functions.  Each definition is translated from the
source file named in its doc comment.
-/

/-- Big-endian byte encoding of `n` into exactly `k` bytes (the layout
`abi.encodePacked` uses for `uintN` fields, and SHA-256 uses for words). -/
def beBytes : Nat → Nat → List Nat
  | 0, _ => []
  | k+1, n => beBytes k (n / 256) ++ [n % 256]

/-- Little-endian byte encoding of `n` into exactly `k` bytes (the lane
layout of Keccak). -/
def leBytes : Nat → Nat → List Nat
  | 0, _ => []
  | k+1, n => n % 256 :: leBytes k (n / 256)

theorem beBytes_length (k : Nat) : ∀ n, (beBytes k n).length = k := by
  induction k with
  | zero => intro n; rfl
  | succ k ih => intro n; simp [beBytes, ih]

theorem beBytes_inj (k : Nat) : ∀ m n, m < 256 ^ k → n < 256 ^ k →
    beBytes k m = beBytes k n → m = n := by
  induction k with
  | zero =>
      intro m n hm hn _
      simp [Nat.pow_zero] at hm hn
      omega
  | succ k ih =>
      intro m n hm hn h
      simp only [beBytes] at h
      have hlen : (beBytes k (m / 256)).length = (beBytes k (n / 256)).length := by
        simp [beBytes_length]
      obtain ⟨h1, h2⟩ := List.append_inj h (by simp [beBytes_length])
      have hm' : m / 256 < 256 ^ k := by
        have : 256 ^ (k+1) = 256 ^ k * 256 := by ring
        exact Nat.div_lt_of_lt_mul (by omega)
      have hn' : n / 256 < 256 ^ k := by
        have : 256 ^ (k+1) = 256 ^ k * 256 := by ring
        exact Nat.div_lt_of_lt_mul (by omega)
      have := ih (m / 256) (n / 256) hm' hn' h1
      have hmod : m % 256 = n % 256 := by simpa using h2
      omega

/-! ## Rank extraction and outcome computation (`src/lib/rank.ts`) -/

/-- Snapshot list entry, from the `SpotifySnapshot` interface in
`src/lib/rank.ts`. -/
structure SnapshotItem where
  rank : Int
  title : List Char
  artist : List Char
  streams : Int
  trackId : List Char
  spotifyUrl : List Char
deriving DecidableEq

/-- Snapshot document, from the `SpotifySnapshot` interface in
`src/lib/rank.ts`. -/
structure SpotifySnapshot where
  schema : List Char
  dateUTC : List Char
  region : List Char
  provider : List Char
  listLength : Int
  items : List SnapshotItem
deriving DecidableEq

/-- The literal `'spotify:track:'` used by `extractRankBySongId`. -/
def trackMarker : List Char := ("spotify:track:").toList

/-- JavaScript `s.replace(pat, '')` for a plain (non-regex) pattern: removes
the first occurrence of `pat` anywhere in `s`; `s` is returned unchanged when
`pat` does not occur. -/
def replaceFirst : List Char → List Char → List Char
  | [], _ => []
  | c :: rest, pat =>
      if pat.isPrefixOf (c :: rest) then (c :: rest).drop pat.length
      else c :: replaceFirst rest pat

/-- Whether `pat` occurs as a contiguous subsequence of `s` (JavaScript
`s.includes(pat)`). -/
def containsSeq : List Char → List Char → Bool
  | [], pat => pat.isEmpty
  | c :: rest, pat => pat.isPrefixOf (c :: rest) || containsSeq rest pat

/-- The loop body of `extractRankBySongId`: first item whose cleaned
`trackId` equals the cleaned song id wins; 101 when none matches. -/
def rankLookup (cleanSongId : List Char) : List SnapshotItem → Int
  | [] => 101
  | item :: rest =>
      if replaceFirst item.trackId trackMarker = cleanSongId then item.rank
      else rankLookup cleanSongId rest

/-- `extractRankBySongId` from `src/lib/rank.ts`: strips the first
`'spotify:track:'` occurrence from the song id and every entry's track id,
returns the first matching entry's rank, and 101 when the song is absent. -/
def extractRankBySongId (snapshot : SpotifySnapshot) (songId : List Char) : Int :=
  rankLookup (replaceFirst songId trackMarker) snapshot.items

/-- The schema tag `'hitcastor.spotify.top100.v1'` checked by
`validateSnapshotSchema`. -/
def snapshotSchemaTag : List Char := ("hitcastor.spotify.top100.v1").toList

/-- `validateSnapshotSchema` from `src/lib/rank.ts`.  In this typed embedding
the structural field/type checks hold by construction; the semantic content
that remains is the exact schema-tag comparison. -/
def validateSnapshotSchema (s : SpotifySnapshot) : Bool :=
  s.schema = snapshotSchemaTag

/-- `computeOutcome` from `src/lib/rank.ts`: 1 (YES) when the rank improved
(`t1Rank < t0Rank`), else 2 (NO). -/
def computeOutcome (t0Rank t1Rank : Int) : Nat :=
  if t1Rank < t0Rank then 1 else 2

/-- Modelled from the spec (§4.2): matching compares the song id and each
entry's id "after stripping the known prefix" — prefix stripping proper, as
opposed to the source's first-occurrence removal. -/
def stripMarkerSpec (s : List Char) : List Char :=
  if trackMarker.isPrefixOf s then s.drop trackMarker.length else s

/-- Modelled from the spec (§4.2, §8): the rank extractor as the spec words
it, uniquely determined by prefix-stripped identifier comparison. -/
def extractRankSpec (snapshot : SpotifySnapshot) (songId : List Char) : Int :=
  match snapshot.items.find? (fun item =>
      stripMarkerSpec item.trackId = stripMarkerSpec songId) with
  | some item => item.rank
  | none => 101

/-! ## SHA-256 (`src/lib/hash.ts` uses Node's `crypto` SHA-256) -/

/-- Split a byte list into chunks of `sz` bytes (fuel-based so that the
definition reduces in the kernel). -/
def chunkAux : Nat → Nat → List Nat → List (List Nat)
  | 0, _, _ => []
  | _, _, [] => []
  | fuel+1, sz, l => l.take sz :: chunkAux fuel sz (l.drop sz)

def chunks (sz : Nat) (l : List Nat) : List (List Nat) :=
  chunkAux (l.length + 1) sz l

/-- Addition modulo 2^32. -/
def add32 (a b : Nat) : Nat := (a + b) % 4294967296

/-- Right rotation of a 32-bit word. -/
def rotr32 (x n : Nat) : Nat := ((x >>> n) ||| (x <<< (32 - n))) % 4294967296

def bigSigma0 (x : Nat) : Nat := rotr32 x 2 ^^^ rotr32 x 13 ^^^ rotr32 x 22
def bigSigma1 (x : Nat) : Nat := rotr32 x 6 ^^^ rotr32 x 11 ^^^ rotr32 x 25
def smallSigma0 (x : Nat) : Nat := rotr32 x 7 ^^^ rotr32 x 18 ^^^ (x >>> 3)
def smallSigma1 (x : Nat) : Nat := rotr32 x 17 ^^^ rotr32 x 19 ^^^ (x >>> 10)
def chWord (x y z : Nat) : Nat := (x &&& y) ^^^ ((x ^^^ 4294967295) &&& z)
def majWord (x y z : Nat) : Nat := (x &&& y) ^^^ (z &&& (x ^^^ y))

/-- The SHA-256 round constants. -/
def sha256K : List Nat :=
  [1116352408, 1899447441, 3049323471, 3921009573, 961987163,
   1508970993, 2453635748, 2870763221, 3624381080, 310598401,
   607225278, 1426881987, 1925078388, 2162078206, 2614888103,
   3248222580, 3835390401, 4022224774, 264347078, 604807628,
   770255983, 1249150122, 1555081692, 1996064986, 2554220882,
   2821834349, 2952996808, 3210313671, 3336571891, 3584528711,
   113926993, 338241895, 666307205, 773529912, 1294757372,
   1396182291, 1695183700, 1986661051, 2177026350, 2456956037,
   2730485921, 2820302411, 3259730800, 3345764771, 3516065817,
   3600352804, 4094571909, 275423344, 430227734, 506948616,
   659060556, 883997877, 958139571, 1322822218, 1537002063,
   1747873779, 1955562222, 2024104815, 2227730452, 2361852424,
   2428436474, 2756734187, 3204031479, 3329325298]

/-- Eight 32-bit words: the SHA-256 chaining value and working state. -/
structure Hash8 where
  w0 : Nat
  w1 : Nat
  w2 : Nat
  w3 : Nat
  w4 : Nat
  w5 : Nat
  w6 : Nat
  w7 : Nat
deriving DecidableEq

def sha256Init : Hash8 :=
  ⟨1779033703, 3144134277, 1013904242, 2773480762,
   1359893119, 2600822924, 528734635, 1541459225⟩

/-- SHA-256 padding: a 0x80 byte, zeros to 56 mod 64, then the bit length
as a 64-bit big-endian integer. -/
def sha256Pad (msg : List Nat) : List Nat :=
  msg ++ [0x80] ++ List.replicate ((119 - msg.length % 64) % 64) 0
      ++ beBytes 8 (msg.length * 8)

/-- The sixteen big-endian 32-bit words of one 64-byte block. -/
def blockWords (block : List Nat) : List Nat :=
  (List.range 16).map (fun i =>
    ((block.getD (4*i) 0) <<< 24) + ((block.getD (4*i+1) 0) <<< 16) +
    ((block.getD (4*i+2) 0) <<< 8) + block.getD (4*i+3) 0)

/-- Extend the sixteen block words into the 64-entry message schedule. -/
def extendWords (ws : List Nat) : List Nat :=
  ((List.range 48).foldl (fun (a : Array Nat) _ =>
      a.push (add32
        (add32 (smallSigma1 (a.getD (a.size - 2) 0)) (a.getD (a.size - 7) 0))
        (add32 (smallSigma0 (a.getD (a.size - 15) 0)) (a.getD (a.size - 16) 0))))
    ws.toArray).toList

/-- One SHA-256 compression round; `kw` is `K[t] + W[t]` mod 2^32. -/
def sha256Round (s : Hash8) (kw : Nat) : Hash8 :=
  let t1 := (s.w7 + bigSigma1 s.w4 + chWord s.w4 s.w5 s.w6 + kw) % 4294967296
  let t2 := (bigSigma0 s.w0 + majWord s.w0 s.w1 s.w2) % 4294967296
  ⟨(t1 + t2) % 4294967296, s.w0, s.w1, s.w2, (s.w3 + t1) % 4294967296,
   s.w4, s.w5, s.w6⟩

/-- Process one 64-byte block into the chaining value. -/
def sha256Block (H : Hash8) (block : List Nat) : Hash8 :=
  let kws := List.zipWith (fun k w => (k + w) % 4294967296)
    sha256K (extendWords (blockWords block))
  let s := kws.foldl sha256Round H
  ⟨add32 H.w0 s.w0, add32 H.w1 s.w1, add32 H.w2 s.w2, add32 H.w3 s.w3,
   add32 H.w4 s.w4, add32 H.w5 s.w5, add32 H.w6 s.w6, add32 H.w7 s.w7⟩

/-- SHA-256 digest of a byte list, as 32 bytes. -/
def sha256Bytes (msg : List Nat) : List Nat :=
  let H := (chunks 64 (sha256Pad msg)).foldl sha256Block sha256Init
  beBytes 4 H.w0 ++ beBytes 4 H.w1 ++ beBytes 4 H.w2 ++ beBytes 4 H.w3 ++
  beBytes 4 H.w4 ++ beBytes 4 H.w5 ++ beBytes 4 H.w6 ++ beBytes 4 H.w7

/-- Lowercase hex digit for a nibble. -/
def nib : Nat → Char
  | 0 => '0' | 1 => '1' | 2 => '2' | 3 => '3' | 4 => '4'
  | 5 => '5' | 6 => '6' | 7 => '7' | 8 => '8' | 9 => '9'
  | 10 => 'a' | 11 => 'b' | 12 => 'c' | 13 => 'd' | 14 => 'e' | _ => 'f'

/-- Lowercase hex rendering of a byte list (Node's `digest('hex')`). -/
def bytesToHex : List Nat → List Char
  | [] => []
  | b :: rest => nib (b / 16) :: nib (b % 16) :: bytesToHex rest

/-- The `sha256` helper from `src/lib/hash.ts`: `'0x'` followed by the
lowercase hex digest. -/
def sha256 (data : List Nat) : List Char :=
  '0' :: 'x' :: bytesToHex (sha256Bytes data)

/-- JavaScript `toLowerCase` restricted to its action on ASCII letters (the
only characters that occur in hex digest strings). -/
def toLowerChar (c : Char) : Char :=
  if 'A' ≤ c ∧ c ≤ 'Z' then Char.ofNat (c.toNat + 32) else c

def toLowerStr (s : List Char) : List Char := s.map toLowerChar

/-- `verifyHash` from `src/lib/hash.ts`: compares the computed `'0x' + hex`
digest with the expected hash, lowercasing both sides. -/
def verifyHash (data : List Nat) (expectedHash : List Char) : Bool :=
  toLowerStr (sha256 data) = toLowerStr expectedHash

/-- Failure modes of `fetchAndVerifyHash`: the non-ok HTTP branch and the
hash-mismatch branch. -/
inductive FetchError where
  | httpError (status : Nat)
  | hashMismatch
deriving DecidableEq

/-- `fetchAndVerifyHash` from `src/lib/hash.ts`, with the network modelled
by the response it produced: `ok` status flag, HTTP status, and body bytes. -/
def fetchAndVerifyHash (respOk : Bool) (status : Nat) (body : List Nat)
    (expectedHash : List Char) : Except FetchError (List Nat) :=
  if !respOk then .error (.httpError status)
  else if !verifyHash body expectedHash then .error .hashMismatch
  else .ok body

/-! ## Keccak-256 and the commitment encoder (`src/chain/viem.ts`) -/

/-- Left rotation of a 64-bit lane. -/
def rotl64 (x n : Nat) : Nat :=
  ((x <<< n) ||| (x >>> (64 - n))) % 18446744073709551616

/-- Keccak rho rotation offset for the lane at position `x + 5*y`. -/
def rhoOff : Nat → Nat
  | 1 => 1 | 2 => 62 | 3 => 28 | 4 => 27
  | 5 => 36 | 6 => 44 | 7 => 6 | 8 => 55 | 9 => 20
  | 10 => 3 | 11 => 10 | 12 => 43 | 13 => 25 | 14 => 39
  | 15 => 41 | 16 => 45 | 17 => 15 | 18 => 21 | 19 => 8
  | 20 => 18 | 21 => 2 | 22 => 61 | 23 => 56 | 24 => 14
  | _ => 0

/-- Keccak rho rotation offsets, indexed by lane position `x + 5*y`. -/
def rhoOffsets : List Nat := (List.range 25).map rhoOff

/-- Keccak-f[1600] round constants. -/
def keccakRC : List Nat :=
  [1, 32898, 9223372036854808714,
   9223372039002292224, 32907, 2147483649,
   9223372039002292353, 9223372036854808585, 138,
   136, 2147516425, 2147483658,
   2147516555, 9223372036854775947, 9223372036854808713,
   9223372036854808579, 9223372036854808578, 9223372036854775936,
   32778, 9223372039002259466, 9223372039002292353,
   9223372036854808704, 2147483649, 9223372039002292232]

/-- One Keccak-f[1600] round (theta, rho, pi, chi, iota) on a 25-lane state
held as a list indexed by `x + 5*y`. -/
def keccakRound (st : List Nat) (rc : Nat) : List Nat :=
  let C := (List.range 5).map (fun x =>
    st.getD x 0 ^^^ st.getD (x+5) 0 ^^^ st.getD (x+10) 0 ^^^
    st.getD (x+15) 0 ^^^ st.getD (x+20) 0)
  let D := (List.range 5).map (fun x =>
    C.getD ((x+4) % 5) 0 ^^^ rotl64 (C.getD ((x+1) % 5) 0) 1)
  let stTheta := (List.range 25).map (fun i => st.getD i 0 ^^^ D.getD (i % 5) 0)
  let B := (List.range 25).foldl (fun (b : List Nat) i =>
      let x := i % 5
      let y := i / 5
      b.set (y + 5 * ((2*x + 3*y) % 5))
        (rotl64 (stTheta.getD i 0) (rhoOffsets.getD i 0)))
    (List.replicate 25 0)
  let stChi := (List.range 25).map (fun i =>
      let x := i % 5
      let y := i / 5
      B.getD i 0 ^^^
        ((B.getD ((x+1) % 5 + 5*y) 0 ^^^ 18446744073709551615) &&&
          B.getD ((x+2) % 5 + 5*y) 0))
  stChi.set 0 (stChi.getD 0 0 ^^^ rc)

/-- The full 24-round Keccak-f[1600] permutation. -/
def keccakF (st : List Nat) : List Nat := keccakRC.foldl keccakRound st

/-- Keccak (pre-FIPS, as used by Ethereum) multi-rate padding for the
136-byte rate: `0x01`, zeros, `0x80` (a single `0x81` byte when one byte of
padding is needed). -/
def keccakPad (msg : List Nat) : List Nat :=
  let padLen := 136 - msg.length % 136
  if padLen = 1 then msg ++ [0x81]
  else msg ++ [0x01] ++ List.replicate (padLen - 2) 0 ++ [0x80]

/-- XOR one 136-byte block into the first seventeen lanes (little-endian). -/
def keccakAbsorb (st : List Nat) (block : List Nat) : List Nat :=
  let lanes := (List.range 17).map (fun i =>
    (List.range 8).foldl (fun acc k => acc + ((block.getD (8*i+k) 0) <<< (8*k))) 0)
  (List.range 25).map (fun i =>
    st.getD i 0 ^^^ (if i < 17 then lanes.getD i 0 else 0))

/-- Keccak-256 digest of a byte list, as 32 bytes (viem's `keccak256`). -/
def keccak256 (msg : List Nat) : List Nat :=
  let st := (chunks 136 (keccakPad msg)).foldl
    (fun st block => keccakF (keccakAbsorb st block)) (List.replicate 25 0)
  leBytes 8 (st.getD 0 0) ++ leBytes 8 (st.getD 1 0) ++
  leBytes 8 (st.getD 2 0) ++ leBytes 8 (st.getD 3 0)

/-- Evidence tuple from `src/chain/viem.ts` (`interface Evidence`).  String
fields are carried as their UTF-8 bytes — the form in which `encodePacked`
consumes them — and the two `bytes32` hex-string fields as the 32-byte value
they decode to. -/
structure Evidence where
  csvUrl : List Nat
  csvSha256 : Nat
  jsonUrl : List Nat
  jsonSha256 : Nat
  ipfsCid : List Nat
deriving DecidableEq

/-- Byte serialization of one evidence tuple inside the commitment preimage:
`string, bytes32, string, bytes32, string` in the field order
`csvUrl, csvSha256, jsonUrl, jsonSha256, ipfsCid` used by
`computeCommitment`. -/
def evidencePacked (e : Evidence) : List Nat :=
  e.csvUrl ++ beBytes 32 e.csvSha256 ++ e.jsonUrl ++
  beBytes 32 e.jsonSha256 ++ e.ipfsCid

/-- The `encodePacked` preimage built by `computeCommitment` in
`src/chain/viem.ts`: types `uint256, uint16, uint16, uint8`, then the five
fields of each evidence tuple (`string` fields as raw bytes with no length
information, `bytes32` fields as 32 bytes), then `uint256`. -/
def encodePackedCommitment (marketId t0Rank t1Rank outcome : Nat)
    (t0Evidence t1Evidence : Evidence) (nonce : Nat) : List Nat :=
  beBytes 32 marketId ++ beBytes 2 t0Rank ++ beBytes 2 t1Rank ++
  beBytes 1 outcome ++ evidencePacked t0Evidence ++ evidencePacked t1Evidence ++
  beBytes 32 nonce

/-- `computeCommitment` from `src/chain/viem.ts`: the Keccak-256 digest of
the packed parameter bytes. -/
def computeCommitment (marketId t0Rank t1Rank outcome : Nat)
    (t0Evidence t1Evidence : Evidence) (nonce : Nat) : List Nat :=
  keccak256 (encodePackedCommitment marketId t0Rank t1Rank outcome
    t0Evidence t1Evidence nonce)

/-! ## Persistence model (`src/db/index.ts`) -/

/-- The fields of a `markets` row that the resolution jobs read. -/
structure Market where
  marketId : Nat
  songId : List Char
  t0Rank : Int
deriving DecidableEq

/-- A `snapshots` row (`interface Snapshot` in `src/db/index.ts`); `bytes32`
hex strings are carried as the 32-byte value they denote, other strings as
UTF-8 bytes. -/
structure Snapshot where
  id : Nat
  jsonUrl : List Nat
  jsonSha256 : Nat
  csvUrl : Option (List Nat)
  csvSha256 : Option Nat
  ipfsCid : Option (List Nat)
deriving DecidableEq

/-- The `resolutions` row (`interface Resolution` in `src/db/index.ts`).
Timestamps are milliseconds since the epoch. -/
structure Resolution where
  marketId : Nat
  t0SnapshotId : Option Nat := none
  t1SnapshotId : Option Nat := none
  t0Rank : Option Int := none
  t1Rank : Option Int := none
  outcome : Option Nat := none
  commitTx : Option (List Char) := none
  committedAt : Option Nat := none
  disputeUntil : Option Nat := none
  finalizeTx : Option (List Char) := none
  finalizedAt : Option Nat := none
deriving DecidableEq

/-- A partial update as passed to `upsertResolution`: `some` marks a field
present in the update object, `none` a field left out (and therefore left
unchanged on conflict). -/
structure ResolutionPatch where
  marketId : Nat
  t0SnapshotId : Option Nat := none
  t1SnapshotId : Option Nat := none
  t0Rank : Option Int := none
  t1Rank : Option Int := none
  outcome : Option Nat := none
  commitTx : Option (List Char) := none
  committedAt : Option Nat := none
  disputeUntil : Option Nat := none
  finalizeTx : Option (List Char) := none
  finalizedAt : Option Nat := none
deriving DecidableEq

/-- Field merge for the `ON CONFLICT ... DO UPDATE SET` clause: a present
patch field overwrites, an absent one keeps the stored value. -/
def updField {α : Type} : Option α → Option α → Option α
  | some v, _ => some v
  | none, old => old

/-- `upsertResolution` from `src/db/index.ts`, restricted to the single row
of the market under resolution (the store is `Option Resolution`): insert
when the row is absent, otherwise update exactly the present fields. -/
def upsertResolution (db : Option Resolution) (p : ResolutionPatch) : Resolution :=
  match db with
  | none =>
      { marketId := p.marketId, t0SnapshotId := p.t0SnapshotId,
        t1SnapshotId := p.t1SnapshotId, t0Rank := p.t0Rank,
        t1Rank := p.t1Rank, outcome := p.outcome, commitTx := p.commitTx,
        committedAt := p.committedAt, disputeUntil := p.disputeUntil,
        finalizeTx := p.finalizeTx, finalizedAt := p.finalizedAt }
  | some r =>
      { marketId := p.marketId,
        t0SnapshotId := updField p.t0SnapshotId r.t0SnapshotId,
        t1SnapshotId := updField p.t1SnapshotId r.t1SnapshotId,
        t0Rank := updField p.t0Rank r.t0Rank,
        t1Rank := updField p.t1Rank r.t1Rank,
        outcome := updField p.outcome r.outcome,
        commitTx := updField p.commitTx r.commitTx,
        committedAt := updField p.committedAt r.committedAt,
        disputeUntil := updField p.disputeUntil r.disputeUntil,
        finalizeTx := updField p.finalizeTx r.finalizeTx,
        finalizedAt := updField p.finalizedAt r.finalizedAt }

/-! ## Resolution jobs (`src/jobs/*.ts`) -/

/-- JavaScript truthiness of an optional number field (`!resolution.outcome`
is true for a missing field and for 0). -/
def outcomeTruthy : Option Nat → Bool
  | none => false
  | some n => n != 0

/-- JavaScript truthiness of an optional string field (missing field and
empty string are falsy). -/
def strFieldTruthy : Option (List Char) → Bool
  | none => false
  | some s => !s.isEmpty

/-- The jobs that can raise an alert. -/
inductive JobName where
  | prepareResolve
  | commitResolve
  | finalizeResolve
deriving DecidableEq

/-- The stage argument of `alertResolutionSuccess`. -/
inductive Stage where
  | commit
  | finalize
deriving DecidableEq

/-- One call into the Slack notification collaborator (`src/lib/alerts.ts`):
`alertJobFailure` from the catch-all failure handler, or
`alertResolutionSuccess` after a successful commit/finalize. -/
inductive Alert where
  | jobFailure (job : JobName)
  | resolutionSuccess (stage : Stage)
deriving DecidableEq

/-- The throw sites of `prepareResolveJob`. -/
inductive PrepErr where
  | marketNotFound
  | snapshotMissing
  | fetchFailed
  | invalidSchema
deriving DecidableEq

/-- Environment of one `prepareResolveJob` run: the market row, the two
snapshot rows looked up by date, and the parsed evidence documents
(`none` when `fetchAndVerifyHash` or `JSON.parse` threw). -/
structure PrepareEnv where
  market : Option Market
  t0Snapshot : Option Snapshot
  t1Snapshot : Option Snapshot
  t0Doc : Option SpotifySnapshot
  t1Doc : Option SpotifySnapshot
deriving DecidableEq

/-- The object returned by `prepareResolveJob`. -/
structure PrepareResult where
  t0Rank : Int
  t1Rank : Int
  outcome : Nat
  t0SnapshotId : Nat
  t1SnapshotId : Nat
deriving DecidableEq

instance {ε α : Type} [DecidableEq ε] [DecidableEq α] : DecidableEq (Except ε α)
  | .error e1, .error e2 =>
      if h : e1 = e2 then isTrue (by rw [h]) else isFalse (by simp [h])
  | .error _, .ok _ => isFalse (by simp)
  | .ok _, .error _ => isFalse (by simp)
  | .ok a, .ok b =>
      if h : a = b then isTrue (by rw [h]) else isFalse (by simp [h])

/-- Result of one `prepareResolveJob` run: the persisted row afterwards, the
returned value or thrown error, and the alerts sent. -/
structure PrepareOutput where
  db : Option Resolution
  result : Except PrepErr PrepareResult
  alerts : List Alert
deriving DecidableEq

/-- `prepareResolveJob` from `src/jobs/prepareResolve.ts`.  Note the source
has no already-prepared short-circuit: it recomputes the ranks and outcome
and upserts them on every run. -/
def prepareResolveJob (env : PrepareEnv) (db : Option Resolution) : PrepareOutput :=
  match env.market with
  | none => ⟨db, .error .marketNotFound, [.jobFailure .prepareResolve]⟩
  | some market =>
    match env.t0Snapshot, env.t1Snapshot with
    | none, _ => ⟨db, .error .snapshotMissing, [.jobFailure .prepareResolve]⟩
    | _, none => ⟨db, .error .snapshotMissing, [.jobFailure .prepareResolve]⟩
    | some t0Snap, some t1Snap =>
      match env.t0Doc, env.t1Doc with
      | none, _ => ⟨db, .error .fetchFailed, [.jobFailure .prepareResolve]⟩
      | _, none => ⟨db, .error .fetchFailed, [.jobFailure .prepareResolve]⟩
      | some t0Doc, some t1Doc =>
        if !(validateSnapshotSchema t0Doc && validateSnapshotSchema t1Doc) then
          ⟨db, .error .invalidSchema, [.jobFailure .prepareResolve]⟩
        else
          let t0Rank := extractRankBySongId t0Doc market.songId
          let t1Rank := extractRankBySongId t1Doc market.songId
          let outcome := computeOutcome t0Rank t1Rank
          let db' := upsertResolution db
            { marketId := market.marketId, t0SnapshotId := some t0Snap.id,
              t1SnapshotId := some t1Snap.id, t0Rank := some t0Rank,
              t1Rank := some t1Rank, outcome := some outcome }
          ⟨some db', .ok ⟨t0Rank, t1Rank, outcome, t0Snap.id, t1Snap.id⟩, []⟩

/-- The throw sites of `commitResolveJob`. -/
inductive CommitErr where
  | marketNotFound
  | notPrepared
  | missingSnapshots
deriving DecidableEq

/-- Environment of one `commitResolveJob` run: the market row, the snapshot
rows `getSnapshot` would return for the stored snapshot ids, the transaction
hash the chain returns for `sendCommitResolve`, the on-chain
`getDisputeWindow()` value (seconds), and `Date.now()` (milliseconds). -/
structure CommitEnv where
  market : Option Market
  t0Snapshot : Option Snapshot
  t1Snapshot : Option Snapshot
  txHash : List Char
  disputeWindowSeconds : Nat
  now : Nat
deriving DecidableEq

/-- The object returned by `commitResolveJob`. -/
structure CommitResult where
  txHash : List Char
  alreadyCommitted : Bool
  disputeUntil : Option Nat
  outcome : Option Nat
deriving DecidableEq

/-- Result of one `commitResolveJob` run: the persisted row afterwards, the
returned value or thrown error, the commitments submitted on chain, and the
alerts sent. -/
structure CommitOutput where
  db : Option Resolution
  result : Except CommitErr CommitResult
  submitted : List (List Nat)
  alerts : List Alert
deriving DecidableEq

/-- Evidence structure built by `commitResolveJob`/`finalizeResolveJob` from
a snapshot row, with the `|| ''` and `|| '0x0000...'` defaults. -/
def evidenceOfSnapshot (s : Snapshot) : Evidence :=
  { jsonUrl := s.jsonUrl, jsonSha256 := s.jsonSha256,
    csvUrl := s.csvUrl.getD [], csvSha256 := s.csvSha256.getD 0,
    ipfsCid := s.ipfsCid.getD [] }

/-- `commitResolveJob` from `src/jobs/commitResolve.ts`.  The stored rank
fields pass through the TypeScript non-null assertion `!`; the embedding
reads them with a default, which is what reaching that line with an absent
field would serialize as after coercion. -/
def commitResolveJob (env : CommitEnv) (db : Option Resolution) : CommitOutput :=
  match env.market with
  | none => ⟨db, .error .marketNotFound, [], [.jobFailure .commitResolve]⟩
  | some market =>
    match db with
    | none => ⟨db, .error .notPrepared, [], [.jobFailure .commitResolve]⟩
    | some resolution =>
      if !outcomeTruthy resolution.outcome then
        ⟨db, .error .notPrepared, [], [.jobFailure .commitResolve]⟩
      else if strFieldTruthy resolution.commitTx then
        ⟨db, .ok ⟨resolution.commitTx.getD [], true, none, some (resolution.outcome.getD 0)⟩,
         [], []⟩
      else
        match (if resolution.t0SnapshotId.isSome then env.t0Snapshot else none),
              (if resolution.t1SnapshotId.isSome then env.t1Snapshot else none) with
        | none, _ => ⟨db, .error .missingSnapshots, [], [.jobFailure .commitResolve]⟩
        | _, none => ⟨db, .error .missingSnapshots, [], [.jobFailure .commitResolve]⟩
        | some s0, some s1 =>
          let commitment := computeCommitment market.marketId
            (resolution.t0Rank.getD 0).toNat (resolution.t1Rank.getD 0).toNat
            (resolution.outcome.getD 0)
            (evidenceOfSnapshot s0) (evidenceOfSnapshot s1) 0
          let disputeUntil := env.now + env.disputeWindowSeconds * 1000
          let db' := upsertResolution db
            { marketId := market.marketId, commitTx := some env.txHash,
              committedAt := some env.now, disputeUntil := some disputeUntil }
          ⟨some db', .ok ⟨env.txHash, false, some disputeUntil, some (resolution.outcome.getD 0)⟩,
           [commitment], [.resolutionSuccess .commit]⟩

/-- The throw sites of `finalizeResolveJob`. -/
inductive FinalizeErr where
  | marketNotFound
  | notCommitted
  | windowActive
  | missingSnapshots
deriving DecidableEq

/-- Environment of one `finalizeResolveJob` run: the market row, the
snapshot rows for the stored snapshot ids, the transaction hash the chain
returns for `sendFinalizeResolve`, and `Date.now()` (milliseconds). -/
structure FinalizeEnv where
  market : Option Market
  t0Snapshot : Option Snapshot
  t1Snapshot : Option Snapshot
  txHash : List Char
  now : Nat
deriving DecidableEq

/-- The object returned by `finalizeResolveJob`. -/
structure FinalizeResult where
  txHash : List Char
  alreadyFinalized : Bool
  outcome : Option Nat
deriving DecidableEq

/-- Result of one `finalizeResolveJob` run: the persisted row afterwards,
the returned value or thrown error, the finalize transactions submitted on
chain, and the alerts sent. -/
structure FinalizeOutput where
  db : Option Resolution
  result : Except FinalizeErr FinalizeResult
  submitted : List (List Char)
  alerts : List Alert
deriving DecidableEq

/-- `finalizeResolveJob` from `src/jobs/finalizeResolve.ts`.  Every thrown
error is routed through the catch-all handler, which calls
`alertJobFailure` before rethrowing — including the dispute-window-active
throw. -/
def finalizeResolveJob (env : FinalizeEnv) (db : Option Resolution) : FinalizeOutput :=
  match env.market with
  | none => ⟨db, .error .marketNotFound, [], [.jobFailure .finalizeResolve]⟩
  | some market =>
    match db with
    | none => ⟨db, .error .notCommitted, [], [.jobFailure .finalizeResolve]⟩
    | some resolution =>
      if !strFieldTruthy resolution.commitTx || !resolution.disputeUntil.isSome then
        ⟨db, .error .notCommitted, [], [.jobFailure .finalizeResolve]⟩
      else if strFieldTruthy resolution.finalizeTx then
        ⟨db, .ok ⟨resolution.finalizeTx.getD [], true, some (resolution.outcome.getD 0)⟩,
         [], []⟩
      else if env.now < resolution.disputeUntil.getD 0 then
        ⟨db, .error .windowActive, [], [.jobFailure .finalizeResolve]⟩
      else
        match (if resolution.t0SnapshotId.isSome then env.t0Snapshot else none),
              (if resolution.t1SnapshotId.isSome then env.t1Snapshot else none) with
        | none, _ => ⟨db, .error .missingSnapshots, [], [.jobFailure .finalizeResolve]⟩
        | _, none => ⟨db, .error .missingSnapshots, [], [.jobFailure .finalizeResolve]⟩
        | some _, some _ =>
          let db' := upsertResolution db
            { marketId := market.marketId, finalizeTx := some env.txHash,
              finalizedAt := some env.now }
          ⟨some db', .ok ⟨env.txHash, false, some (resolution.outcome.getD 0)⟩,
           [env.txHash], [.resolutionSuccess .finalize]⟩

/-! ## Two concurrent finalize workers (§5 of the spec)

`finalizeResolveJob` touches shared state at three points: the
`getResolution` read, the `sendFinalizeResolve` chain call, and the
`upsertResolution` write.  Everything between those points operates on the
worker's localRow copy of the row.  The interleaving model below replays the
job with exactly those three atomic events per worker. -/

/-- Whether a `finalizeResolveJob` run that read `localRow` from the store
reaches the `sendFinalizeResolve` call (the unique submitting path of the
job: market found, row committed, not yet finalized, window elapsed, both
snapshots found). -/
def finalizeReachesSubmit (env : FinalizeEnv) (localRow : Option Resolution) : Bool :=
  match env.market, localRow with
  | some _, some r =>
      strFieldTruthy r.commitTx && r.disputeUntil.isSome &&
      !strFieldTruthy r.finalizeTx &&
      !decide (env.now < r.disputeUntil.getD 0) &&
      (if r.t0SnapshotId.isSome then env.t0Snapshot else none).isSome &&
      (if r.t1SnapshotId.isSome then env.t1Snapshot else none).isSome
  | _, _ => false

/-- Progress of one finalize worker between its atomic events. -/
inductive WorkerPhase where
  | start
  | readDone (localRow : Option Resolution)
  | submitDone (localRow : Option Resolution)
  | done
deriving DecidableEq

/-- Shared state of the two-worker system: the persisted row, the finalize
transactions submitted on chain so far (in submission order), and each
worker's phase. -/
structure TwoWorkerState where
  db : Option Resolution
  submitted : List (List Char)
  w0 : WorkerPhase
  w1 : WorkerPhase
deriving DecidableEq

/-- One atomic step of a finalize worker against the shared row: the read,
then (when the read copy passes every guard of `finalizeResolveJob`) the
chain submission, then the `upsertResolution` write; a worker whose read
copy fails a guard stops without touching the store again. -/
def workerStep (env : FinalizeEnv) (ph : WorkerPhase) (db : Option Resolution) :
    WorkerPhase × Option Resolution × List (List Char) :=
  match ph with
  | .start => (.readDone db, db, [])
  | .readDone localRow =>
      if finalizeReachesSubmit env localRow then (.submitDone localRow, db, [env.txHash])
      else (.done, db, [])
  | .submitDone _ =>
      (.done,
       some (upsertResolution db
         { marketId := ((env.market).map Market.marketId).getD 0,
           finalizeTx := some env.txHash, finalizedAt := some env.now }),
       [])
  | .done => (.done, db, [])

/-- Scheduler step: run the next atomic event of worker `false` or worker
`true`. -/
def sysStep (e0 e1 : FinalizeEnv) (g : TwoWorkerState) (i : Bool) : TwoWorkerState :=
  if i then
    match workerStep e1 g.w1 g.db with
    | (ph, db, subs) => { db := db, submitted := g.submitted ++ subs, w0 := g.w0, w1 := ph }
  else
    match workerStep e0 g.w0 g.db with
    | (ph, db, subs) => { db := db, submitted := g.submitted ++ subs, w0 := ph, w1 := g.w1 }

/-- Run a schedule (a list of worker choices) from an initial shared row. -/
def runSchedule (e0 e1 : FinalizeEnv) (db : Option Resolution) (sched : List Bool) :
    TwoWorkerState :=
  sched.foldl (sysStep e0 e1) ⟨db, [], .start, .start⟩

/-! ## Helper lemmas -/

theorem updField_idem {α : Type} (a b : Option α) :
    updField a (updField a b) = updField a b := by
  cases a <;> rfl

theorem updField_self {α : Type} (a : Option α) : updField a a = a := by
  cases a <;> rfl

theorem replaceFirst_append (pat s : List Char) :
    replaceFirst (pat ++ s) pat = s := by
  cases hps : pat ++ s with
  | nil =>
      rcases List.append_eq_nil.mp hps with ⟨h1, h2⟩
      subst h1; subst h2; rfl
  | cons c rest =>
      rw [replaceFirst]
      have hp : pat.isPrefixOf (c :: rest) = true := by
        rw [← hps]
        simp [List.isPrefixOf_iff_prefix]
      rw [if_pos hp, ← hps]
      exact List.drop_left pat s

theorem replaceFirst_of_not_contains (s pat : List Char)
    (h : containsSeq s pat = false) : replaceFirst s pat = s := by
  induction s with
  | nil => rfl
  | cons c rest ih =>
      rw [containsSeq, Bool.or_eq_false_iff] at h
      rw [replaceFirst, if_neg (by simp [h.1]), ih h.2]

theorem rankLookup_eq_find (clean : List Char) (items : List SnapshotItem) :
    rankLookup clean items =
      (match items.find? (fun item =>
          replaceFirst item.trackId trackMarker == clean) with
       | some item => item.rank
       | none => 101) := by
  induction items with
  | nil => rfl
  | cons item rest ih =>
      rw [rankLookup]
      by_cases h : replaceFirst item.trackId trackMarker = clean
      · rw [if_pos h]; simp [List.find?_cons, h]
      · have hb : (replaceFirst item.trackId trackMarker == clean) = false := by
          simp [h]
        rw [if_neg h, ih]
        simp [List.find?_cons, hb]

/-! ## Claim theorems -/

/-- C1: `computeOutcome` returns YES (1) if and only if `t1Rank < t0Rank`,
and NO (2) otherwise — including the tie, and the absence sentinel 101 at
t1, which is never below a real rank (1..100), so absence yields NO. -/
theorem C1_computeOutcome_yes_iff (t0Rank t1Rank : Int) :
    (computeOutcome t0Rank t1Rank = 1 ↔ t1Rank < t0Rank) ∧
    (computeOutcome t0Rank t1Rank = 2 ↔ ¬t1Rank < t0Rank) ∧
    computeOutcome t0Rank t0Rank = 2 ∧
    (1 ≤ t0Rank → t0Rank ≤ 100 → computeOutcome t0Rank 101 = 2) := by
  refine ⟨?_, ?_, ?_, ?_⟩
  · unfold computeOutcome; split <;> simp_all
  · unfold computeOutcome; split <;> simp_all
  · simp [computeOutcome]
  · intro h1 h2
    unfold computeOutcome
    rw [if_neg (by omega)]

theorem C1_computeOutcome_yes_iff_witness :
    computeOutcome 5 3 = 1 ∧ computeOutcome 5 5 = 2 ∧ computeOutcome 50 101 = 2 :=
  ⟨(C1_computeOutcome_yes_iff 5 3).1.mpr (by decide),
   (C1_computeOutcome_yes_iff 5 5).2.2.1,
   (C1_computeOutcome_yes_iff 50 101).2.2.2 (by decide) (by decide)⟩

/-- C9: `computeOutcome` never returns 0 — it is 1 or 2 — so a resolution
whose outcome was produced by `prepareResolveJob` is truthy, and the
`!resolution.outcome` prepared-check of `commitResolveJob` never rejects it
as not prepared. -/
theorem C9_outcome_never_zero (t0Rank t1Rank : Int) (env : CommitEnv)
    (res : Resolution) (m : Market) (hm : env.market = some m)
    (hout : res.outcome = some (computeOutcome t0Rank t1Rank)) :
    (computeOutcome t0Rank t1Rank = 1 ∨ computeOutcome t0Rank t1Rank = 2) ∧
    computeOutcome t0Rank t1Rank ≠ 0 ∧
    outcomeTruthy res.outcome = true ∧
    (commitResolveJob env (some res)).result ≠ .error .notPrepared := by
  have h12 : computeOutcome t0Rank t1Rank = 1 ∨ computeOutcome t0Rank t1Rank = 2 := by
    unfold computeOutcome; split <;> simp
  have hne : computeOutcome t0Rank t1Rank ≠ 0 := by
    rcases h12 with h | h <;> omega
  have htr : outcomeTruthy res.outcome = true := by
    rw [hout]; simp [outcomeTruthy, hne]
  refine ⟨h12, hne, htr, ?_⟩
  unfold commitResolveJob
  rw [hm]
  simp only [htr, Bool.not_true]
  split
  · simp_all
  · split
    · simp
    · split <;> simp

theorem C9_outcome_never_zero_witness :
    (commitResolveJob
        ⟨some ⟨1, [], 12⟩, none, none, [], 60, 0⟩
        (some { marketId := 1, outcome := some (computeOutcome 12 8) })).result ≠
      .error .notPrepared :=
  (C9_outcome_never_zero 12 8 _ _ _ rfl rfl).2.2.2

/-- Snapshot used to separate first-occurrence removal from prefix
stripping: one entry with bare track id `'ab'` at rank 5. -/
def c8Snapshot : SpotifySnapshot :=
  { schema := snapshotSchemaTag, dateUTC := [], region := [], provider := [],
    listLength := 100,
    items := [{ rank := 5, title := [], artist := [], streams := 0,
                trackId := ("ab").toList, spotifyUrl := [] }] }

/-- A song id containing `'spotify:track:'` in the middle rather than as a
prefix. -/
def c8SongId : List Char := ("aspotify:track:b").toList

/-- C8 counterexample: the source strips the *first occurrence* of
`'spotify:track:'` anywhere in the identifier (JavaScript `replace`), not a
prefix.  On the identifier `'aspotify:track:b'` the code collapses it to
`'ab'` and matches rank 5, while the claimed prefix-stripping matching
leaves it unchanged and reports the absence sentinel 101. -/
theorem C8_counterexample :
    extractRankBySongId c8Snapshot c8SongId = 5 ∧
    extractRankSpec c8Snapshot c8SongId = 101 := by
  constructor <;> decide

/-- C8 (amended): `extractRankBySongId` returns the rank of the first entry
whose track id equals the song id after removing the first occurrence of
`'spotify:track:'` from both, and 101 when no entry matches; when the song
id does not contain `'spotify:track:'` elsewhere, the prefixed form
`'spotify:track:' ++ X` and the bare form `X` resolve identically. -/
theorem C8_extractRank_characterization (snapshot : SpotifySnapshot)
    (songId : List Char) :
    (extractRankBySongId snapshot songId =
      (match snapshot.items.find? (fun item =>
          replaceFirst item.trackId trackMarker ==
          replaceFirst songId trackMarker) with
       | some item => item.rank
       | none => 101)) ∧
    (containsSeq songId trackMarker = false →
      extractRankBySongId snapshot (trackMarker ++ songId) =
        extractRankBySongId snapshot songId) := by
  constructor
  · exact rankLookup_eq_find (replaceFirst songId trackMarker) snapshot.items
  · intro h
    unfold extractRankBySongId
    rw [replaceFirst_append, replaceFirst_of_not_contains songId trackMarker h]

theorem C8_extractRank_characterization_witness :
    extractRankBySongId c8Snapshot (trackMarker ++ ("ab").toList) =
      extractRankBySongId c8Snapshot (("ab").toList) :=
  (C8_extractRank_characterization c8Snapshot (("ab").toList)).2 (by decide)

theorem toLowerChar_nib (n : Nat) : toLowerChar (nib n) = nib n := by
  unfold nib; split <;> decide

theorem toLowerStr_bytesToHex (bs : List Nat) :
    toLowerStr (bytesToHex bs) = bytesToHex bs := by
  induction bs with
  | nil => rfl
  | cons b rest ih =>
      rw [bytesToHex, toLowerStr, List.map_cons, List.map_cons,
        toLowerChar_nib, toLowerChar_nib]
      exact congrArg _ (congrArg _ ih)

theorem toLowerStr_sha256 (data : List Nat) :
    toLowerStr (sha256 data) = sha256 data := by
  rw [sha256, toLowerStr, List.map_cons, List.map_cons]
  have h0 : toLowerChar '0' = '0' := by decide
  have hx : toLowerChar 'x' = 'x' := by decide
  rw [h0, hx]
  exact congrArg _ (congrArg _ (toLowerStr_bytesToHex _))

theorem bytesToHex_length (l : List Nat) :
    (bytesToHex l).length = 2 * l.length := by
  induction l with
  | nil => rfl
  | cons b rest ih => simp [bytesToHex, ih]; ring

theorem sha256Bytes_length (data : List Nat) :
    (sha256Bytes data).length = 32 := by
  simp [sha256Bytes, beBytes_length]

theorem sha256_length (data : List Nat) : (sha256 data).length = 66 := by
  simp [sha256, bytesToHex_length, sha256Bytes_length]

/-- C10: `verifyHash` accepts exactly when the lowercased expected hash
equals `'0x'` followed by the lowercase hex SHA-256 of the data; any
64-character expected hash — in particular a correct digest without the
`'0x'` prefix — never verifies, and `fetchAndVerifyHash` then rejects the
fetched bytes with its hash-mismatch (integrity) error. -/
theorem C10_verifyHash_iff (data : List Nat) (expectedHash : List Char) :
    (verifyHash data expectedHash = true ↔
      toLowerStr expectedHash = sha256 data) ∧
    (expectedHash.length = 64 →
      verifyHash data expectedHash = false ∧
      ∀ status, fetchAndVerifyHash true status data expectedHash =
        .error .hashMismatch) := by
  have hfix : toLowerStr (sha256 data) = sha256 data := toLowerStr_sha256 data
  constructor
  · unfold verifyHash
    rw [hfix]
    simp [eq_comm]
  · intro h64
    have hfalse : verifyHash data expectedHash = false := by
      unfold verifyHash
      rw [hfix]
      simp only [decide_eq_false_iff_not]
      intro heq
      have h1 : (sha256 data).length = 66 := sha256_length data
      have h2 : (toLowerStr expectedHash).length = 64 := by
        simp [toLowerStr, h64]
      rw [heq] at h1
      omega
    refine ⟨hfalse, fun status => ?_⟩
    simp [fetchAndVerifyHash, hfalse]

theorem C10_verifyHash_iff_witness :
    verifyHash [] (bytesToHex (sha256Bytes [])) = false ∧
    fetchAndVerifyHash true 200 [] (bytesToHex (sha256Bytes [])) =
      .error .hashMismatch := by
  have h := (C10_verifyHash_iff [] (bytesToHex (sha256Bytes []))).2
    (by rw [bytesToHex_length, sha256Bytes_length])
  exact ⟨h.1, h.2 200⟩

/-- C2 (amended): the commitment digest is a function of the packed byte
sequence (identical inputs — indeed identical serializations — give the
identical digest), and the numeric fields `marketId`, `t0Rank`, `t1Rank`,
`outcome` and `nonce` occupy fixed-width unambiguous positions: equal packed
bytes force them equal, so changing any one of them changes the serialized
bytes.  (String fields enjoy no such position: see the counterexample.) -/
theorem C2_commitment_packed_fields
    (m1 t0a t1a oa : Nat) (e0a e1a : Evidence) (na : Nat)
    (m2 t0b t1b ob : Nat) (e0b e1b : Evidence) (nb : Nat)
    (hm1 : m1 < 256 ^ 32) (hm2 : m2 < 256 ^ 32)
    (ht0a : t0a < 256 ^ 2) (ht0b : t0b < 256 ^ 2)
    (ht1a : t1a < 256 ^ 2) (ht1b : t1b < 256 ^ 2)
    (hoa : oa < 256 ^ 1) (hob : ob < 256 ^ 1)
    (hna : na < 256 ^ 32) (hnb : nb < 256 ^ 32)
    (h : encodePackedCommitment m1 t0a t1a oa e0a e1a na =
         encodePackedCommitment m2 t0b t1b ob e0b e1b nb) :
    computeCommitment m1 t0a t1a oa e0a e1a na =
      computeCommitment m2 t0b t1b ob e0b e1b nb ∧
    m1 = m2 ∧ t0a = t0b ∧ t1a = t1b ∧ oa = ob ∧ na = nb := by
  have hdig : computeCommitment m1 t0a t1a oa e0a e1a na =
      computeCommitment m2 t0b t1b ob e0b e1b nb := by
    unfold computeCommitment
    rw [h]
  unfold encodePackedCommitment at h
  simp only [List.append_assoc] at h
  obtain ⟨h1, h⟩ := List.append_inj h (by simp [beBytes_length])
  obtain ⟨h2, h⟩ := List.append_inj h (by simp [beBytes_length])
  obtain ⟨h3, h⟩ := List.append_inj h (by simp [beBytes_length])
  obtain ⟨h4, h⟩ := List.append_inj h (by simp [beBytes_length])
  rw [← List.append_assoc, ← List.append_assoc] at h
  obtain ⟨-, h5⟩ := List.append_inj' h (by simp [beBytes_length])
  exact ⟨hdig, beBytes_inj 32 _ _ hm1 hm2 h1, beBytes_inj 2 _ _ ht0a ht0b h2,
    beBytes_inj 2 _ _ ht1a ht1b h3, beBytes_inj 1 _ _ hoa hob h4,
    beBytes_inj 32 _ _ hna hnb h5⟩

/-- The 32-byte value with every byte 0x61, as the `csvSha256` of the
colliding evidence tuples. -/
def c2Sha : Nat :=
  0x6161616161616161616161616161616161616161616161616161616161616161

def c2EvidenceA : Evidence :=
  { csvUrl := [], csvSha256 := c2Sha, jsonUrl := [0x61], jsonSha256 := 0,
    ipfsCid := [] }

def c2EvidenceB : Evidence :=
  { csvUrl := [0x61], csvSha256 := c2Sha, jsonUrl := [], jsonSha256 := 0,
    ipfsCid := [] }

def c2EvidenceC : Evidence :=
  { csvUrl := [], csvSha256 := 0, jsonUrl := [], jsonSha256 := 0,
    ipfsCid := [] }

/-- C2 counterexample: `encodePacked` does not length-prefix or delimit
strings, so two different `t0Evidence` values — one with `csvUrl = ''`,
`jsonUrl = 'a'`, the other with `csvUrl = 'a'`, `jsonUrl = ''`, around a
`csvSha256` of 32 `0x61` bytes — serialize to the same byte sequence and
produce the identical commitment digest while every other input is
unchanged. -/
theorem C2_counterexample :
    c2EvidenceA ≠ c2EvidenceB ∧
    computeCommitment 1 5 3 1 c2EvidenceA c2EvidenceC 0 =
      computeCommitment 1 5 3 1 c2EvidenceB c2EvidenceC 0 := by
  exact ⟨by decide, by rfl⟩

theorem C2_commitment_packed_fields_witness :
    computeCommitment 7 5 3 1 c2EvidenceC c2EvidenceC 0 =
      computeCommitment 7 5 3 1 c2EvidenceC c2EvidenceC 0 :=
  (C2_commitment_packed_fields 7 5 3 1 c2EvidenceC c2EvidenceC 0
    7 5 3 1 c2EvidenceC c2EvidenceC 0
    (by norm_num) (by norm_num) (by norm_num) (by norm_num) (by norm_num)
    (by norm_num) (by norm_num) (by norm_num) (by norm_num) (by norm_num)
    rfl).1

theorem upsertResolution_idem (db : Option Resolution) (p : ResolutionPatch) :
    upsertResolution (some (upsertResolution db p)) p = upsertResolution db p := by
  cases db <;> simp [upsertResolution, updField_idem, updField_self]

/-- Market, snapshot rows and evidence documents for re-running prepare: the
market's song sits at rank 12 in the t0 document and at rank 20 in the t1
document. -/
def c3Market : Market := { marketId := 1, songId := ("song1").toList, t0Rank := 12 }

def c3Doc0 : SpotifySnapshot :=
  { schema := snapshotSchemaTag, dateUTC := [], region := [], provider := [],
    listLength := 100,
    items := [{ rank := 12, title := [], artist := [], streams := 0,
                trackId := ("song1").toList, spotifyUrl := [] }] }

def c3Doc1 : SpotifySnapshot :=
  { schema := snapshotSchemaTag, dateUTC := [], region := [], provider := [],
    listLength := 100,
    items := [{ rank := 20, title := [], artist := [], streams := 0,
                trackId := ("song1").toList, spotifyUrl := [] }] }

def c3Env : PrepareEnv :=
  { market := some c3Market,
    t0Snapshot := some { id := 10, jsonUrl := [], jsonSha256 := 0,
                         csvUrl := none, csvSha256 := none, ipfsCid := none },
    t1Snapshot := some { id := 11, jsonUrl := [], jsonSha256 := 0,
                         csvUrl := none, csvSha256 := none, ipfsCid := none },
    t0Doc := some c3Doc0, t1Doc := some c3Doc1 }

/-- A resolution row whose outcome was already set to 1 (YES) by an earlier
prepare run against different t1 evidence. -/
def c3Res0 : Resolution :=
  { marketId := 1, t0SnapshotId := some 10, t1SnapshotId := some 11,
    t0Rank := some 12, t1Rank := some 8, outcome := some 1 }

/-- C3 counterexample: `prepareResolveJob` has no already-prepared
short-circuit — run against a row whose outcome is already set to 1, it
recomputes from the (different) supplied evidence and overwrites the stored
outcome with 2. -/
theorem C3_counterexample :
    c3Res0.outcome = some 1 ∧
    (prepareResolveJob c3Env (some c3Res0)).db.map Resolution.outcome =
      some (some 2) := by
  exact ⟨rfl, by decide⟩

/-- C3 (amended): prepare recomputes and overwrites on every invocation
rather than returning the stored result; what does hold is value-level
idempotence — a second run with the same market, snapshots and evidence
documents returns the same result, leaves the row exactly as the first run
wrote it, and raises no error. -/
theorem C3_prepare_recompute_idempotent (env : PrepareEnv) (db : Option Resolution)
    (r : PrepareResult) (h : (prepareResolveJob env db).result = .ok r) :
    prepareResolveJob env ((prepareResolveJob env db).db) =
      ⟨(prepareResolveJob env db).db, .ok r, []⟩ := by
  cases hmk : env.market with
  | none => simp [prepareResolveJob, hmk] at h
  | some m =>
    cases hs0 : env.t0Snapshot with
    | none => simp [prepareResolveJob, hmk, hs0] at h
    | some s0 =>
      cases hs1 : env.t1Snapshot with
      | none => simp [prepareResolveJob, hmk, hs0, hs1] at h
      | some s1 =>
        cases hd0 : env.t0Doc with
        | none => simp [prepareResolveJob, hmk, hs0, hs1, hd0] at h
        | some d0 =>
          cases hd1 : env.t1Doc with
          | none => simp [prepareResolveJob, hmk, hs0, hs1, hd0, hd1] at h
          | some d1 =>
            cases hv : validateSnapshotSchema d0 && validateSnapshotSchema d1 with
            | false => simp [prepareResolveJob, hmk, hs0, hs1, hd0, hd1, hv] at h
            | true =>
              simp only [prepareResolveJob, hmk, hs0, hs1, hd0, hd1, hv,
                Bool.not_true, Bool.false_eq_true, if_false] at h ⊢
              rw [← h]
              simp [upsertResolution_idem]

theorem C3_prepare_recompute_idempotent_witness :
    prepareResolveJob c3Env ((prepareResolveJob c3Env none).db) =
      ⟨(prepareResolveJob c3Env none).db, .ok ⟨12, 20, 2, 10, 11⟩, []⟩ :=
  C3_prepare_recompute_idempotent c3Env none ⟨12, 20, 2, 10, 11⟩ (by decide)

/-- C4: `commitResolveJob` on a resolution whose commit transaction
reference is already persisted returns that stored reference, leaves the row
untouched, submits nothing to the chain, and sends no alert — the
`resolution.commitTx` check precedes the `sendCommitResolve` call
unconditionally. -/
theorem C4_commit_idempotent (env : CommitEnv) (res : Resolution) (m : Market)
    (tx : List Char) (hm : env.market = some m)
    (hout : outcomeTruthy res.outcome = true)
    (htx : res.commitTx = some tx) (hne : tx ≠ []) :
    commitResolveJob env (some res) =
      ⟨some res, .ok ⟨tx, true, none, some (res.outcome.getD 0)⟩, [], []⟩ := by
  have htr : strFieldTruthy (some tx) = true := by
    simp [strFieldTruthy, List.isEmpty_iff, hne]
  unfold commitResolveJob
  rw [hm]
  simp [hout, htr, htx]

theorem C4_commit_idempotent_witness :
    commitResolveJob
        ⟨some ⟨1, [], 12⟩, none, none, ("0xnew").toList, 60, 5000⟩
        (some { marketId := 1, outcome := some 1,
                commitTx := some (("0xold").toList) }) =
      ⟨some { marketId := 1, outcome := some 1,
              commitTx := some (("0xold").toList) },
       .ok ⟨("0xold").toList, true, none, some 1⟩, [], []⟩ :=
  C4_commit_idempotent _ _ _ _ rfl (by decide) rfl (by decide)

/-- C5: for a committed, not-yet-finalized resolution, `finalizeResolveJob`
invoked strictly before `disputeUntil` fails with the window-active error
and submits nothing, while invoked at or after `disputeUntil` it submits the
finalize transaction and persists the transaction reference and the
finalization timestamp. -/
theorem C5_finalize_window_gate (env : FinalizeEnv) (res : Resolution)
    (m : Market) (ctx : List Char) (du : Nat)
    (hm : env.market = some m)
    (hc : res.commitTx = some ctx) (hcne : ctx ≠ [])
    (hd : res.disputeUntil = some du)
    (hf : res.finalizeTx = none)
    (hs0 : res.t0SnapshotId.isSome = true) (hs1 : res.t1SnapshotId.isSome = true)
    (he0 : env.t0Snapshot.isSome = true) (he1 : env.t1Snapshot.isSome = true) :
    (env.now < du →
      finalizeResolveJob env (some res) =
        ⟨some res, .error .windowActive, [], [.jobFailure .finalizeResolve]⟩) ∧
    (du ≤ env.now →
      (finalizeResolveJob env (some res)).submitted = [env.txHash] ∧
      (finalizeResolveJob env (some res)).result =
        .ok ⟨env.txHash, false, some (res.outcome.getD 0)⟩ ∧
      ∃ r', (finalizeResolveJob env (some res)).db = some r' ∧
        r'.finalizeTx = some env.txHash ∧ r'.finalizedAt = some env.now) := by
  have hctr : strFieldTruthy (some ctx) = true := by
    simp [strFieldTruthy, List.isEmpty_iff, hcne]
  obtain ⟨s0, he0'⟩ := Option.isSome_iff_exists.mp he0
  obtain ⟨s1, he1'⟩ := Option.isSome_iff_exists.mp he1
  constructor
  · intro hnow
    unfold finalizeResolveJob
    rw [hm]
    simp [hc, hd, hf, hctr, strFieldTruthy, hnow, hcne]
  · intro hnow
    unfold finalizeResolveJob
    rw [hm]
    simp [hc, hd, hf, hctr, strFieldTruthy, hs0, hs1, he0', he1', hcne,
      Nat.not_lt.mpr hnow, upsertResolution, updField]

def c5Res : Resolution :=
  { marketId := 1, t0SnapshotId := some 10, t1SnapshotId := some 11,
    t0Rank := some 12, t1Rank := some 8, outcome := some 1,
    commitTx := some (("0xc").toList), committedAt := some 1000,
    disputeUntil := some 2000 }

def c5Env : FinalizeEnv :=
  { market := some { marketId := 1, songId := [], t0Rank := 12 },
    t0Snapshot := some { id := 10, jsonUrl := [], jsonSha256 := 0,
                         csvUrl := none, csvSha256 := none, ipfsCid := none },
    t1Snapshot := some { id := 11, jsonUrl := [], jsonSha256 := 0,
                         csvUrl := none, csvSha256 := none, ipfsCid := none },
    txHash := ("0xf").toList, now := 2000 }

theorem C5_finalize_window_gate_witness :
    (finalizeResolveJob c5Env (some c5Res)).submitted = [c5Env.txHash] :=
  ((C5_finalize_window_gate c5Env c5Res _ _ 2000 rfl rfl (by decide) rfl rfl
      rfl rfl rfl rfl).2 (by decide)).1

/-- Committed resolution still inside its dispute window. -/
def c7Res : Resolution :=
  { marketId := 1, t0SnapshotId := some 10, t1SnapshotId := some 11,
    t0Rank := some 12, t1Rank := some 8, outcome := some 1,
    commitTx := some (("0xc").toList), committedAt := some 1000,
    disputeUntil := some 2000 }

def c7Env : FinalizeEnv :=
  { market := some { marketId := 1, songId := [], t0Rank := 12 },
    t0Snapshot := none, t1Snapshot := none,
    txHash := ("0xf").toList, now := 1500 }

/-- C7 counterexample: a finalize attempt that fails only because the
dispute window is still active *does* go through the notification
collaborator — the catch-all failure handler of `finalizeResolveJob` calls
`alertJobFailure` for the window-active throw like for any other error. -/
theorem C7_counterexample :
    (finalizeResolveJob c7Env (some c7Res)).result = .error .windowActive ∧
    (finalizeResolveJob c7Env (some c7Res)).alerts =
      [.jobFailure .finalizeResolve] := by
  exact ⟨by decide, by decide⟩

/-- C7 (amended): every failure of the finalize transition is reported
through the notification collaborator — the window-active failure included:
it produces exactly one `alertJobFailure` notification, while still
submitting no transaction and leaving the row unchanged. -/
theorem C7_window_failure_alerts (env : FinalizeEnv) (res : Resolution)
    (m : Market) (ctx : List Char) (du : Nat)
    (hm : env.market = some m)
    (hc : res.commitTx = some ctx) (hcne : ctx ≠ [])
    (hd : res.disputeUntil = some du)
    (hf : res.finalizeTx = none)
    (hnow : env.now < du) :
    (finalizeResolveJob env (some res)).result = .error .windowActive ∧
    (finalizeResolveJob env (some res)).submitted = [] ∧
    (finalizeResolveJob env (some res)).db = some res ∧
    (finalizeResolveJob env (some res)).alerts =
      [.jobFailure .finalizeResolve] := by
  have hctr : strFieldTruthy (some ctx) = true := by
    simp [strFieldTruthy, List.isEmpty_iff, hcne]
  unfold finalizeResolveJob
  rw [hm]
  simp [hc, hd, hf, hctr, strFieldTruthy, hnow, hcne]

theorem C7_window_failure_alerts_witness :
    (finalizeResolveJob c7Env (some c7Res)).alerts =
      [.jobFailure .finalizeResolve] :=
  (C7_window_failure_alerts c7Env c7Res _ _ 2000 rfl rfl (by decide) rfl rfl
    (by decide)).2.2.2

def c6Res : Resolution :=
  { marketId := 1, t0SnapshotId := some 10, t1SnapshotId := some 11,
    t0Rank := some 12, t1Rank := some 8, outcome := some 1,
    commitTx := some (("0xc").toList), committedAt := some 1000,
    disputeUntil := some 2000 }

def c6Snap0 : Snapshot :=
  { id := 10, jsonUrl := [], jsonSha256 := 0, csvUrl := none,
    csvSha256 := none, ipfsCid := none }

def c6Snap1 : Snapshot :=
  { id := 11, jsonUrl := [], jsonSha256 := 0, csvUrl := none,
    csvSha256 := none, ipfsCid := none }

def c6Env0 : FinalizeEnv :=
  { market := some { marketId := 1, songId := [], t0Rank := 12 },
    t0Snapshot := some c6Snap0, t1Snapshot := some c6Snap1,
    txHash := ("0xf0").toList, now := 3000 }

def c6Env1 : FinalizeEnv :=
  { market := some { marketId := 1, songId := [], t0Rank := 12 },
    t0Snapshot := some c6Snap0, t1Snapshot := some c6Snap1,
    txHash := ("0xf1").toList, now := 3000 }

/-- C6 counterexample: with the dispute window elapsed for both workers, the
interleaving read₀ read₁ submit₀ submit₁ write₀ write₁ of two finalize
executions makes both workers pass the `finalizeTx` check on their stale
read and both submit — two distinct finalize transactions go out against the
same resolution row. -/
theorem C6_counterexample :
    c6Res.disputeUntil = some 2000 ∧ 2000 ≤ c6Env0.now ∧ 2000 ≤ c6Env1.now ∧
    (runSchedule c6Env0 c6Env1 (some c6Res)
        [false, true, false, true, false, true]).submitted =
      [c6Env0.txHash, c6Env1.txHash] ∧
    c6Env0.txHash ≠ c6Env1.txHash := by
  refine ⟨rfl, by decide, by decide, by decide, by decide⟩

/-- C6 (amended): the finalize transition's read-check-write is not atomic,
so exactly-once submission holds only for non-interleaved executions: when
one worker's read-submit-write completes before the second worker reads, the
second observes the recorded `finalizeTx`, short-circuits, and exactly one
finalize transaction is ever submitted. -/
theorem C6_finalize_serialized_once (e0 e1 : FinalizeEnv) (res : Resolution)
    (m0 m1 : Market) (ctx : List Char) (du : Nat)
    (hm0 : e0.market = some m0) (hm1 : e1.market = some m1)
    (hc : res.commitTx = some ctx) (hcne : ctx ≠ [])
    (hd : res.disputeUntil = some du)
    (hf : res.finalizeTx = none)
    (hs0 : res.t0SnapshotId.isSome = true) (hs1 : res.t1SnapshotId.isSome = true)
    (he0 : e0.t0Snapshot.isSome = true) (he1 : e0.t1Snapshot.isSome = true)
    (hnow0 : du ≤ e0.now)
    (htx : e0.txHash ≠ []) :
    (runSchedule e0 e1 (some res) [false, false, false, true, true]).submitted =
      [e0.txHash] ∧
    (∃ r', (runSchedule e0 e1 (some res) [false, false, false, true, true]).db =
        some r' ∧ r'.finalizeTx = some e0.txHash) ∧
    (runSchedule e0 e1 (some res) [false, false, false, true, true]).w1 =
      .done := by
  obtain ⟨s0, he0'⟩ := Option.isSome_iff_exists.mp he0
  obtain ⟨s1, he1'⟩ := Option.isSome_iff_exists.mp he1
  have hreach : finalizeReachesSubmit e0 (some res) = true := by
    simp [finalizeReachesSubmit, hm0, hc, hd, hf, strFieldTruthy,
      List.isEmpty_iff, hcne, hs0, hs1, he0', he1', Nat.not_lt.mpr hnow0]
  have hnoreach : finalizeReachesSubmit e1
      (some (upsertResolution (some res)
        ⟨(Option.map Market.marketId e0.market).getD 0, none, none, none,
         none, none, none, none, none, some e0.txHash, some e0.now⟩)) =
      false := by
    simp [finalizeReachesSubmit, hm1, upsertResolution, updField,
      strFieldTruthy, List.isEmpty_iff, htx]
  have hrun : runSchedule e0 e1 (some res) [false, false, false, true, true] =
      ⟨some (upsertResolution (some res)
          ⟨(Option.map Market.marketId e0.market).getD 0, none, none, none,
           none, none, none, none, none, some e0.txHash, some e0.now⟩),
       [e0.txHash], .done, .done⟩ := by
    simp [runSchedule, sysStep, workerStep, hreach, hnoreach]
  rw [hrun]
  refine ⟨rfl, ⟨_, rfl, ?_⟩, rfl⟩
  simp [upsertResolution, updField]

theorem C6_finalize_serialized_once_witness :
    (runSchedule c6Env0 c6Env1 (some c6Res)
        [false, false, false, true, true]).submitted = [c6Env0.txHash] :=
  (C6_finalize_serialized_once c6Env0 c6Env1 c6Res _ _ _ 2000 rfl rfl rfl
    (by decide) rfl rfl rfl rfl rfl rfl (by decide) (by decide)).1

/-! ## Hash implementation anchors

The repository's own unit test (`resolve.unit.test.ts`) pins
`sha256('hello world')`; the Keccak-256 empty-input digest is the standard
Ethereum test vector.  Both check the embedded hash functions against the
primitives the source relies on. -/

set_option maxRecDepth 4096 in
theorem sha256_hello_world_vector :
    sha256 ((("hello world").toList).map Char.toNat) =
      ("0xb94d27b9934d3e08a52e52d7da7dabfac484efe37a5380ee9088f7ace2efcde9").toList := by
  decide

set_option maxRecDepth 4096 in
theorem keccak256_empty_vector :
    bytesToHex (keccak256 []) =
      ("c5d2460186f7233c927e7db2dcc703c0e500b653ca82273b7bfad8045d85a470").toList := by
  decide
